import Mathlib

/-!
Shallow embedding of the tf-plan-analyzer repository
(src/scripts/analyze_plan.py and src/scripts/fetch_tfc_plan.py),
with theorems settling the frozen claims about its specification.

Conventions of the embedding:
* Python dict `.get(k, default)` on optional fields is modelled by `Option`
  fields read with `Option.getD`.
* Python `str.lower()` is modelled by `strLower` (ASCII lowercasing of the
  character list); all labels involved are ASCII.
* `sys.exit(n)` is modelled by returning the exit code `n`.
* Network fetches in the polling loop are modelled by a status stream
  `statuses : Nat → String`, where `statuses k` is the result of the
  (k+1)-th status check; `time.sleep(10)` is modelled by accumulating 10
  time units in the result.
-/

namespace TfPlanAnalyzer

/-- ASCII lowercasing of a string, modelling Python `str.lower()` on the
ASCII labels this program compares. -/
def strLower (s : String) : String := String.mk (s.data.map Char.toLower)

/-- Severity enum from analyze_plan.py lines 10-26: LOW=0, MEDIUM=1, HIGH=2,
CRITICAL=3. -/
inductive Severity where
  | LOW
  | MEDIUM
  | HIGH
  | CRITICAL
deriving DecidableEq

/-- Numeric value of a severity member (the Python enum value). -/
def Severity.value : Severity → Nat
  | .LOW => 0
  | .MEDIUM => 1
  | .HIGH => 2
  | .CRITICAL => 3

/-- Severity.from_string (analyze_plan.py lines 16-23): dictionary lookup on
the lowercased label, defaulting to LOW for unrecognized labels. -/
def Severity.from_string (s : String) : Severity :=
  let t := strLower s
  if t = "low" then .LOW
  else if t = "medium" then .MEDIUM
  else if t = "high" then .HIGH
  else if t = "critical" then .CRITICAL
  else .LOW

/-- One issue dict as produced by the Gemini-response parsing or by the
fabricated fallback findings.  All fields are read with `.get` defaults in
the source, so they are all optional here; `full_text` is present only on
the parse-failure fallback. -/
structure Issue where
  resource_type : Option String
  resource_name : Option String
  severity : Option String
  description : Option String
  impact : Option String
  recommendation : Option String
  full_text : Option String
deriving DecidableEq

/-- Outcome of the Gemini call and the JSON-extraction of its response
(analyze_plan.py lines 155-176).  The transport call and the JSON parsing
are external effects; this type records which of the three control paths of
`analyze_plan_with_gemini` is taken, carrying exactly the data that path
uses: the parsed issue list, the unparsable raw response text, or the
exception message of a failed call. -/
inductive GeminiOutcome where
  | parsed (issues : List Issue)
  | parseFailure (rawText : String)
  | callError (msg : String)

/-- Fallback issue fabricated on a JSON parse failure
(analyze_plan.py lines 189-199). -/
def parseFallbackIssue (raw : String) : Issue :=
  { resource_type := some ("general")
    resource_name := some ("plan-wide")
    severity := some ("MEDIUM")
    description := some ("Analysis could not be structured properly")
    impact := some ("Unable to automatically process security concerns")
    recommendation := some ("Review the full analysis text")
    full_text := some raw }

/-- Error issue fabricated when the Gemini call itself raises
(analyze_plan.py lines 201-210). -/
def callErrorIssue (msg : String) : Issue :=
  { resource_type := some ("error")
    resource_name := some ("analysis-failed")
    severity := some ("HIGH")
    description := some ("Failed to analyze plan: " ++ msg)
    impact := some ("Security risks might be present but could not be detected")
    recommendation := some ("Check the plan manually or fix the API error")
    full_text := none }

/-- analyze_plan_with_gemini, post-call logic (analyze_plan.py lines
155-210): on a successful parse, filter the issues by the severity
threshold; on a JSON parse failure, return the single MEDIUM fallback issue
(note: returned directly, without passing through the filter); on a failed
call, return the single HIGH error issue (also without the filter). -/
def analyze_plan_with_gemini (outcome : GeminiOutcome) (severity_threshold : String) :
    List Issue :=
  match outcome with
  | .parsed issues =>
      let threshold := Severity.from_string severity_threshold
      issues.filter (fun issue =>
        threshold.value ≤ (Severity.from_string (issue.severity.getD (""))).value)
  | .parseFailure raw => [parseFallbackIssue raw]
  | .callError msg => [callErrorIssue msg]

/-- Lookup in the severity_levels dict of get_highest_severity
(analyze_plan.py line 305): {"critical": 3, "high": 2, "medium": 1,
"low": 0}; `none` models `sev not in severity_levels`. -/
def severity_level? (sev : String) : Option Int :=
  if sev = "critical" then some 3
  else if sev = "high" then some 2
  else if sev = "medium" then some 1
  else if sev = "low" then some 0
  else none

/-- Step of the maximum-scan of get_highest_severity (analyze_plan.py
lines 308-311): update `highest` when the label is recognized and its level
exceeds the current maximum; otherwise leave `highest` unchanged. -/
def highestStep (highest : Int) (issue : Issue) : Int :=
  match severity_level? (strLower (issue.severity.getD (""))) with
  | some level => if highest < level then level else highest
  | none => highest

/-- get_highest_severity (analyze_plan.py lines 300-317): "none" for an
empty list; otherwise scan the recognized labels for the maximal level
starting from -1, then map the level back to its label, returning "none"
when no label was recognized. -/
def get_highest_severity (issues : List Issue) : String :=
  if issues.isEmpty then ("none")
  else
    let highest := issues.foldl highestStep (-1 : Int)
    if highest = 3 then ("critical")
    else if highest = 2 then ("high")
    else if highest = 1 then ("medium")
    else if highest = 0 then ("low")
    else ("none")

/-- Exit-code decision of main (analyze_plan.py lines 360-369): exit 1 when
`Severity.from_string(get_highest_severity(issues)).value` is at least the
fail level and the issue list is non-empty, else exit 0. -/
def main_exit_code (issues : List Issue) (fail_level : String) : Nat :=
  let fl := Severity.from_string fail_level
  let highest_found := Severity.from_string (get_highest_severity issues)
  if fl.value ≤ highest_found.value ∧ 0 < issues.length then 1 else 0

/-- Modelled from the spec (section 4.5): the highest-severity ordinal of a
findings list, mapping each finding's label to its ordinal with
`Severity.from_string` (unrecognized labels thus default to LOW) and taking
the maximum.  Used only to compare the code's decision against the spec's
formula. -/
def spec_highest_ordinal (issues : List Issue) : Nat :=
  issues.foldl (fun m issue =>
    max m (Severity.from_string (issue.severity.getD (""))).value) 0

/-- Per-severity counters of generate_markdown_report (analyze_plan.py
line 264): the dict {'critical': 0, 'high': 0, 'medium': 0, 'low': 0}. -/
structure SeverityCounts where
  critical : Nat
  high : Nat
  medium : Nat
  low : Nat
deriving DecidableEq

/-- Counting step of generate_markdown_report (analyze_plan.py lines
265-268): increment the counter keyed by the lowercased severity label when
that key is one of the four; otherwise count nothing. -/
def countStep (c : SeverityCounts) (issue : Issue) : SeverityCounts :=
  let s := strLower (issue.severity.getD (""))
  if s = "critical" then { c with critical := c.critical + 1 }
  else if s = "high" then { c with high := c.high + 1 }
  else if s = "medium" then { c with medium := c.medium + 1 }
  else if s = "low" then { c with low := c.low + 1 }
  else c

/-- Severity counters for an issue list (analyze_plan.py lines 264-268). -/
def severity_counts (issues : List Issue) : SeverityCounts :=
  issues.foldl countStep ⟨0, 0, 0, 0⟩

/-- Severity-count rows of the report (analyze_plan.py lines 270-272): the
dict is iterated in insertion order, emitting one row per severity with the
upper-cased label. -/
def severityRows (issues : List Issue) : List (String × Nat) :=
  let c := severity_counts issues
  [(("CRITICAL"), c.critical), (("HIGH"), c.high),
   (("MEDIUM"), c.medium), (("LOW"), c.low)]

/-- JSON-like values, standing for the before/after resource states carried
opaquely through extract_plan_changes; `obj []` is the empty dict `{}`. -/
inductive JVal where
  | null
  | bool (b : Bool)
  | num (n : Int)
  | str (s : String)
  | arr (elems : List JVal)
  | obj (fields : List (String × JVal))

/-- Change sub-object of a resource-change entry of the plan document
(the `change` dict with its optional `actions`, `before`, `after` keys). -/
structure ChangeBlock where
  actions : Option (List String)
  before : Option JVal
  after : Option JVal

/-- One entry of the plan document's `resource_changes` array; every field
is optional, matching the `.get` accesses in the source. -/
structure PlanEntry where
  type_ : Option String
  name : Option String
  address : Option String
  change : Option ChangeBlock

/-- Plan document as consumed by extract_plan_changes and
generate_plan_summary: only the optional top-level `resource_changes`
collection is inspected. -/
structure PlanData where
  resource_changes : Option (List PlanEntry)

/-- Evaluate `change.get('change', {}).get('actions', [])` on an entry. -/
def entryActions (e : PlanEntry) : List String :=
  match e.change with
  | none => []
  | some cb => cb.actions.getD []

/-- Evaluate `change.get('change', {}).get('before', {})` on an entry. -/
def entryBefore (e : PlanEntry) : JVal :=
  match e.change with
  | none => JVal.obj []
  | some cb => cb.before.getD (JVal.obj [])

/-- Evaluate `change.get('change', {}).get('after', {})` on an entry. -/
def entryAfter (e : PlanEntry) : JVal :=
  match e.change with
  | none => JVal.obj []
  | some cb => cb.after.getD (JVal.obj [])

/-- Normalized resource change produced by extract_plan_changes
(analyze_plan.py lines 61-67). -/
structure ResourceChange where
  resource_type : String
  resource_name : String
  actions : List String
  before : JVal
  after : JVal

/-- Dict appended by extract_plan_changes for one non-no-op entry. -/
def mkResourceChange (e : PlanEntry) : ResourceChange :=
  { resource_type := e.type_.getD ("")
    resource_name := e.name.getD ("")
    actions := entryActions e
    before := entryBefore e
    after := entryAfter e }

/-- Body of the extraction loop over a `resource_changes` list
(analyze_plan.py lines 48-67): skip entries whose actions equal exactly
['no-op'], append the normalized dict otherwise. -/
def extractChanges (entries : List PlanEntry) : List ResourceChange :=
  entries.filterMap (fun e =>
    if entryActions e = [("no-op")] then none else some (mkResourceChange e))

/-- extract_plan_changes (analyze_plan.py lines 42-69): empty when the
document has no `resource_changes` key. -/
def extract_plan_changes (plan : PlanData) : List ResourceChange :=
  match plan.resource_changes with
  | none => []
  | some entries => extractChanges entries

/-- Resource reference stored in the `add` and `delete` buckets of the plan
summary (address, type, name). -/
structure ResourceRef where
  address : String
  type_ : String
  name : String
deriving DecidableEq

/-- Resource reference stored in the `change` bucket, carrying the resolved
action label ("update" or "replace"). -/
structure ChangeRef where
  address : String
  type_ : String
  name : String
  action : String
deriving DecidableEq

/-- Plan summary of generate_plan_summary (analyze_plan.py lines 73-78):
three buckets and their totals (the `totals` sub-dict is flattened into the
three `totals_` fields). -/
structure PlanSummary where
  add : List ResourceRef
  change : List ChangeRef
  delete : List ResourceRef
  totals_add : Nat
  totals_change : Nat
  totals_delete : Nat
deriving DecidableEq

/-- Initial summary value (all buckets empty, all totals zero). -/
def emptySummary : PlanSummary := ⟨[], [], [], 0, 0, 0⟩

/-- Address of an entry: `change.get('address', f"{type}.{name}")`
(analyze_plan.py line 86). -/
def entryAddress (e : PlanEntry) : String :=
  e.address.getD (e.type_.getD ("") ++ "." ++ e.name.getD (""))

/-- Body of the summary loop for one entry (analyze_plan.py lines 82-115):
skip exact ['no-op'] action lists, then categorize by action presence —
create first, then update-or-replace (labeled "update" when update is
present, else "replace"), then delete; entries matching no category leave
the summary unchanged. -/
def summaryStep (s : PlanSummary) (e : PlanEntry) : PlanSummary :=
  let actions := entryActions e
  let rt := e.type_.getD ("")
  let rn := e.name.getD ("")
  let addr := entryAddress e
  if actions = [("no-op")] then s
  else if ("create") ∈ actions then
    { s with add := s.add ++ [⟨addr, rt, rn⟩], totals_add := s.totals_add + 1 }
  else if ("update") ∈ actions ∨ ("replace") ∈ actions then
    let action_type := if ("update") ∈ actions then ("update") else ("replace")
    { s with change := s.change ++ [⟨addr, rt, rn, action_type⟩],
             totals_change := s.totals_change + 1 }
  else if ("delete") ∈ actions then
    { s with delete := s.delete ++ [⟨addr, rt, rn⟩],
             totals_delete := s.totals_delete + 1 }
  else s

/-- generate_plan_summary (analyze_plan.py lines 71-117). -/
def generate_plan_summary (plan : PlanData) : PlanSummary :=
  match plan.resource_changes with
  | none => emptySummary
  | some entries => entries.foldl summaryStep emptySummary

/-- Terminal success statuses of a run (fetch_tfc_plan.py lines 171, 180,
200): the plan is ready. -/
def success_statuses : List String :=
  [("planned"), ("planned_and_finished"), ("applied"), ("completed")]

/-- Terminal failure statuses checked inside the polling loop
(fetch_tfc_plan.py line 196). -/
def failure_statuses : List String := [("errored"), ("canceled"), ("discarded")]

/-- Result of the completion-polling phase of fetch_plan_from_tfc.
`attempts` is the number of in-loop status re-checks performed (the Python
`retry_count`); `slept` is the total time slept, in the 10-unit intervals
of `time.sleep(10)`.  The total number of status checks is `attempts + 1`,
counting the initial pre-loop check. -/
inductive PollResult where
  | success (status : String) (attempts slept : Nat)
  | runFailed (status : String) (attempts slept : Nat)
  | pollTimeout (lastStatus : String) (attempts slept : Nat)
deriving DecidableEq

/-- Attempts performed, for any poll outcome. -/
def PollResult.attempts : PollResult → Nat
  | .success _ a _ => a
  | .runFailed _ a _ => a
  | .pollTimeout _ a _ => a

/-- Total time slept, for any poll outcome. -/
def PollResult.slept : PollResult → Nat
  | .success _ _ s => s
  | .runFailed _ _ s => s
  | .pollTimeout _ _ s => s

/-- Polling loop of fetch_plan_from_tfc (fetch_tfc_plan.py lines 180-202):
while retries remain and the status is not a terminal success, sleep 10,
re-fetch the status (`statuses (attempts + 1)` is the re-fetched value),
exit immediately with failure when it is a terminal-failure status, and
after the loop report timeout when the status is still not a success.
`fuel` is `max_retries - retry_count`. -/
def pollLoop (statuses : Nat → String) (fuel attempts slept : Nat)
    (runStatus : String) : PollResult :=
  if runStatus ∈ success_statuses then .success runStatus attempts slept
  else
    match fuel with
    | 0 => .pollTimeout runStatus attempts slept
    | f + 1 =>
      let newStatus := statuses (attempts + 1)
      if newStatus ∈ failure_statuses then
        .runFailed newStatus (attempts + 1) (slept + 10)
      else pollLoop statuses f (attempts + 1) (slept + 10) newStatus

/-- Completion-polling phase of fetch_plan_from_tfc (fetch_tfc_plan.py
lines 169-204): the initial status check (`statuses 0`) skips the whole
waiting block when it is already a terminal success; otherwise the loop
runs with `max_retries = max_wait_minutes * 6` (one check every 10 time
units, 6 per minute). -/
def fetch_plan_poll (statuses : Nat → String) (max_wait_minutes : Nat) : PollResult :=
  let s0 := statuses 0
  if s0 ∈ success_statuses then .success s0 0 0
  else pollLoop statuses (max_wait_minutes * 6) 0 0 s0

/-- One candidate run as accumulated in matching_runs (fetch_tfc_plan.py
lines 97-101): run id, creation timestamp (modelled as a Nat, standing for
the lexicographically ordered created-at string), and status. -/
structure RunInfo where
  run_id : String
  created_at : Nat
  status : String
deriving DecidableEq

/-- In-progress statuses of the run selection (fetch_tfc_plan.py
line 134). -/
def in_progress_statuses : List String :=
  [("pending"), ("planning"), ("cost_estimating")]

/-- Descending created-at order used to sort matching runs
(fetch_tfc_plan.py line 121, `sort(key=..., reverse=True)`). -/
def runDescRel (a b : RunInfo) : Prop := b.created_at ≤ a.created_at

instance : DecidableRel runDescRel := fun a b => Nat.decLe b.created_at a.created_at

instance : IsTotal RunInfo runDescRel := ⟨fun a b => Nat.le_total b.created_at a.created_at⟩

instance : IsTrans RunInfo runDescRel := ⟨fun _ _ _ hab hbc => le_trans hbc hab⟩

/-- Scan of the sorted matching runs (fetch_tfc_plan.py lines 124-136):
stop at the first run whose status is plan-ready; remember the first
in-progress run seen along the way.  Returns (completed_run,
in_progress_run). -/
def scanRuns : List RunInfo → Option RunInfo → Option RunInfo × Option RunInfo
  | [], ip => (none, ip)
  | r :: rest, ip =>
    if r.status ∈ success_statuses then (some r, ip)
    else
      let ip' := if r.status ∈ in_progress_statuses ∧ ip = none then some r else ip
      scanRuns rest ip'

/-- Run selection of fetch_plan_from_tfc (fetch_tfc_plan.py lines 119-154):
with matching runs, sort them by created_at descending, prefer the first
plan-ready run, else the first in-progress run, else the most recent match;
with no matching runs, fall back to the head of the full run list. -/
def select_run_id (matching_runs all_runs : List RunInfo) : Option String :=
  if matching_runs.isEmpty then all_runs.head?.map (fun r => r.run_id)
  else
    let sorted := List.insertionSort runDescRel matching_runs
    match scanRuns sorted none with
    | (some completed, _) => some completed.run_id
    | (none, some inprog) => some inprog.run_id
    | (none, none) => sorted.head?.map (fun r => r.run_id)

/-- Whether an issue's lowercased severity label is one of the four keys of
the report's severity-count dict. -/
def recognizedSeverity (issue : Issue) : Bool :=
  let s := strLower (issue.severity.getD (""))
  if s = "critical" then true
  else if s = "high" then true
  else if s = "medium" then true
  else if s = "low" then true
  else false

/-- Sum of the four severity counters. -/
def SeverityCounts.total (c : SeverityCounts) : Nat :=
  c.critical + c.high + c.medium + c.low

/-- Concrete issue whose severity label is recognized by no component. -/
def unrecognizedIssue : Issue :=
  { resource_type := some ("aws_s3_bucket")
    resource_name := some ("logs")
    severity := some ("informational")
    description := none
    impact := none
    recommendation := none
    full_text := none }

/-- Concrete HIGH-severity issue (upper-case label, as the oracle emits). -/
def highIssue : Issue :=
  { resource_type := some ("aws_iam_role")
    resource_name := some ("admin")
    severity := some ("HIGH")
    description := none
    impact := none
    recommendation := none
    full_text := none }

/-- Concrete LOW-severity issue. -/
def lowIssue : Issue :=
  { resource_type := some ("aws_s3_bucket")
    resource_name := some ("assets")
    severity := some ("low")
    description := none
    impact := none
    recommendation := none
    full_text := none }

/-- Plan entry with every optional field absent. -/
def emptyEntry : PlanEntry := ⟨none, none, none, none⟩

/-- Plan entry whose action list is exactly ['create']. -/
def createEntry : PlanEntry :=
  ⟨some ("aws_s3_bucket"), some ("b"), none, some ⟨some [("create")], none, none⟩⟩

/-- Plan entry whose action list is exactly ['delete']. -/
def deleteEntry : PlanEntry :=
  ⟨some ("aws_instance"), some ("i"), none, some ⟨some [("delete")], none, none⟩⟩

/-- Plan entry whose action list is exactly ['no-op']. -/
def noopEntry : PlanEntry :=
  ⟨some ("aws_vpc"), some ("v"), none, some ⟨some [("no-op")], none, none⟩⟩

/-- Plan entry whose action list matches no summary category. -/
def readEntry : PlanEntry :=
  ⟨some ("data_source"), some ("d"), none, some ⟨some [("read")], none, none⟩⟩

/-- Status stream whose very first check already reports a failure status
and whose re-check reports a completed plan. -/
def failFirstStatuses : Nat → String :=
  fun k => if k = 0 then ("errored") else ("planned")

/-- Status stream realizing the spec scenario [planning, planning, errored]. -/
def scenarioStatuses : Nat → String :=
  fun k => if k ≤ 1 then ("planning") else ("errored")

/-- Older matching in-progress run. -/
def runA : RunInfo := ⟨("run-old"), 5, ("planning")⟩

/-- Most recent matching in-progress run. -/
def runB : RunInfo := ⟨("run-new"), 9, ("pending")⟩

/-- Unrelated completed run present only in the full candidate list. -/
def runZ : RunInfo := ⟨("run-unrelated"), 100, ("planned")⟩

/-! Theorems. -/

/-- Claim C3, counterexample: the claim asserts the parse-failure fallback
finding is subject to the severity floor and is removed when the floor is
CRITICAL; but with floor "critical" the fallback (severity MEDIUM, strictly
below the floor) is still returned, because the fallback return bypasses
the filter. -/
theorem C3_counterexample :
    analyze_plan_with_gemini (.parseFailure ("not json at all")) ("critical")
      = [parseFallbackIssue ("not json at all")]
    ∧ (Severity.from_string (("MEDIUM"))).value
        < (Severity.from_string ("critical")).value := by
  exact ⟨rfl, by decide⟩

/-- Claim C3, amended: for every unparsable oracle response and every
severity floor, analyze_plan_with_gemini returns exactly one finding with
severity MEDIUM, resource_type "general", resource_name "plan-wide" and the
full unparsed response as raw text, unconditionally — the fallback bypasses
the severity-floor filter, so it is present even when the floor is HIGH or
CRITICAL. -/
theorem C3_parse_fallback (raw floor : String) :
    analyze_plan_with_gemini (.parseFailure raw) floor = [parseFallbackIssue raw]
    ∧ (parseFallbackIssue raw).severity = some ("MEDIUM")
    ∧ (parseFallbackIssue raw).resource_type = some ("general")
    ∧ (parseFallbackIssue raw).resource_name = some ("plan-wide")
    ∧ (parseFallbackIssue raw).full_text = some raw :=
  ⟨rfl, rfl, rfl, rfl, rfl⟩

/-- Claim C9: for every failure of the oracle call itself and every
severity floor (including CRITICAL, whose ordinal exceeds HIGH),
analyze_plan_with_gemini returns exactly one finding with severity HIGH,
resource_type "error", resource_name "analysis-failed" and the failure
cause embedded in the description; the result does not depend on the floor,
so the finding is never filtered out, and the function returns a list for
the report instead of propagating the failure. -/
theorem C9_call_failure_finding (msg floor : String) :
    analyze_plan_with_gemini (.callError msg) floor = [callErrorIssue msg]
    ∧ (callErrorIssue msg).severity = some ("HIGH")
    ∧ (callErrorIssue msg).resource_type = some ("error")
    ∧ (callErrorIssue msg).resource_name = some ("analysis-failed")
    ∧ (callErrorIssue msg).description = some ("Failed to analyze plan: " ++ msg) :=
  ⟨rfl, rfl, rfl, rfl, rfl⟩

/-- Step lemma: countStep adds one to the total exactly when the issue's
lowercased label is one of the four recognized keys. -/
theorem countStep_total (c : SeverityCounts) (i : Issue) :
    (countStep c i).total = c.total + (if recognizedSeverity i then 1 else 0) := by
  unfold countStep recognizedSeverity SeverityCounts.total
  by_cases h1 : strLower (i.severity.getD ("")) = "critical" <;>
    by_cases h2 : strLower (i.severity.getD ("")) = "high" <;>
      by_cases h3 : strLower (i.severity.getD ("")) = "medium" <;>
        by_cases h4 : strLower (i.severity.getD ("")) = "low" <;>
          simp [h1, h2, h3, h4] <;> omega

/-- Fold lemma: the total of the severity counters over a list equals the
number of issues with a recognized label. -/
theorem counts_total (issues : List Issue) (c : SeverityCounts) :
    (issues.foldl countStep c).total
      = c.total + (issues.filter (fun i => recognizedSeverity i)).length := by
  induction issues generalizing c with
  | nil => simp
  | cons i tl ih =>
      rw [List.foldl_cons, ih, countStep_total, List.filter_cons]
      by_cases h : recognizedSeverity i
      · simp only [h, if_true, List.length_cons]
        omega
      · simp only [h, if_false, Bool.false_eq_true]
        omega

/-- Claim C5, counterexample: the claim asserts the four severity-count
rows always sum to the length of the input findings list; on a single
finding with the unrecognized label "informational" the rows sum to 0 while
the input has length 1. -/
theorem C5_counterexample :
    (severityRows [unrecognizedIssue]).length = 4
    ∧ ((severityRows [unrecognizedIssue]).map Prod.snd).sum = 0
    ∧ ([unrecognizedIssue] : List Issue).length = 1 := by
  refine ⟨rfl, by decide, rfl⟩

/-- Claim C5, amended: for every findings list the report contains exactly
four severity-count rows, labeled CRITICAL, HIGH, MEDIUM, LOW in that order
and zero-filled when absent, and the four counts sum to the number of input
findings whose lowercased severity label is one of those four — findings
with unrecognized labels are not counted in any row. -/
theorem C5_severity_rows (issues : List Issue) :
    (severityRows issues).length = 4
    ∧ (severityRows issues).map Prod.fst = [("CRITICAL"), ("HIGH"), ("MEDIUM"), ("LOW")]
    ∧ ((severityRows issues).map Prod.snd).sum
        = (issues.filter (fun i => recognizedSeverity i)).length := by
  refine ⟨rfl, rfl, ?_⟩
  have h := counts_total issues ⟨0, 0, 0, 0⟩
  simp only [SeverityCounts.total] at h
  simp only [severityRows, severity_counts, List.map_cons, List.map_nil, List.sum_cons,
    List.sum_nil]
  omega

/-- Claim C4, counterexample: the claim asserts that a non-empty findings
list whose labels are all unrecognized has highest severity "low"; in fact
get_highest_severity skips unrecognized labels entirely and returns the
sentinel "none" for such a list. -/
theorem C4_counterexample :
    get_highest_severity [unrecognizedIssue] = ("none")
    ∧ get_highest_severity [unrecognizedIssue] ≠ ("low") := by
  exact ⟨by decide, by decide⟩

/-- Unrecognized labels leave the maximum-scan accumulator unchanged. -/
theorem foldl_highestStep_unrecognized (issues : List Issue)
    (h : ∀ i ∈ issues,
      strLower (i.severity.getD ("")) ∉ [("low"), ("medium"), ("high"), ("critical")]) :
    ∀ a : Int, issues.foldl highestStep a = a := by
  induction issues with
  | nil => intro a; rfl
  | cons i tl ih =>
      intro a
      have hi := h i (List.mem_cons_self i tl)
      simp only [List.mem_cons, List.mem_singleton, not_or] at hi
      obtain ⟨h1, h2, h3, h4⟩ := hi
      have hstep : highestStep a i = a := by
        unfold highestStep severity_level?
        simp [h1, h2, h3, h4]
      rw [List.foldl_cons, hstep]
      exact ih (fun j hj => h j (List.mem_cons_of_mem _ hj)) a

/-- Claim C4, amended: Severity.from_string maps every label outside
{low, medium, high, critical} (any case) to LOW; but get_highest_severity
does not map unrecognized labels to LOW — it skips them when taking the
maximum, so a non-empty findings list whose labels are all unrecognized has
highest severity "none", not "low" (the final decision then maps "none"
back to LOW via Severity.from_string). -/
theorem C4_severity_defaults :
    (∀ s : String,
        strLower s ∉ [("low"), ("medium"), ("high"), ("critical")] →
        Severity.from_string s = Severity.LOW)
    ∧ (∀ issues : List Issue,
        (∀ i ∈ issues,
          strLower (i.severity.getD ("")) ∉ [("low"), ("medium"), ("high"), ("critical")]) →
        get_highest_severity issues = ("none")) := by
  constructor
  · intro s h
    simp only [List.mem_cons, List.mem_singleton, not_or] at h
    obtain ⟨h1, h2, h3, h4⟩ := h
    unfold Severity.from_string
    simp [h1, h2, h3, h4]
  · intro issues h
    unfold get_highest_severity
    by_cases he : issues.isEmpty
    · simp [he]
    · rw [foldl_highestStep_unrecognized issues h]
      simp [he]

/-- Witness for C4_severity_defaults at the concrete label "bogus" and the
concrete all-unrecognized findings list. -/
theorem C4_severity_defaults_witness :
    Severity.from_string ("bogus") = Severity.LOW
    ∧ get_highest_severity [unrecognizedIssue] = ("none") :=
  ⟨C4_severity_defaults.1 ("bogus") (by decide),
   C4_severity_defaults.2 [unrecognizedIssue] (by decide)⟩

/-- Every severity ordinal is at most 3. -/
theorem Severity.value_le_three (s : Severity) : s.value ≤ 3 := by
  cases s <;> decide

/-- Relation between the severity_levels lookup of get_highest_severity and
Severity.from_string on the same label: a recognized label maps to the same
ordinal on both sides, and an unrecognized label maps to LOW (ordinal 0) in
from_string. -/
theorem level_from_string (x : String) :
    severity_level? (strLower x) = some ((Severity.from_string x).value : Int)
    ∨ (severity_level? (strLower x) = none ∧ Severity.from_string x = Severity.LOW) := by
  unfold severity_level? Severity.from_string
  by_cases h1 : strLower x = "critical" <;>
    by_cases h2 : strLower x = "high" <;>
      by_cases h3 : strLower x = "medium" <;>
        by_cases h4 : strLower x = "low" <;>
          simp_all [Severity.value]

/-- Main fold correspondence: the toNat of the recognized-only maximum scan
(started at -1) coincides with the spec's maximum of from_string ordinals
(started at the accumulator's toNat), and the accumulator stays within
[-1, 3]. -/
theorem highest_fold_toNat (issues : List Issue) :
    ∀ a : Int, -1 ≤ a → a ≤ 3 →
      (issues.foldl highestStep a).toNat
          = issues.foldl
              (fun m issue =>
                max m (Severity.from_string (issue.severity.getD (""))).value) a.toNat
      ∧ -1 ≤ issues.foldl highestStep a ∧ issues.foldl highestStep a ≤ 3 := by
  induction issues with
  | nil => intro a h1 h3; exact ⟨rfl, h1, h3⟩
  | cons i tl ih =>
      intro a h1 h3
      rw [List.foldl_cons, List.foldl_cons]
      have hval := Severity.value_le_three (Severity.from_string (i.severity.getD ("")))
      rcases level_from_string (i.severity.getD ("")) with hsome | ⟨hnone, hlow⟩
      · have hstep : highestStep a i
            = if a < ((Severity.from_string (i.severity.getD (""))).value : Int)
              then ((Severity.from_string (i.severity.getD (""))).value : Int) else a := by
          unfold highestStep
          rw [hsome]
        have hacc : (highestStep a i).toNat
              = max a.toNat (Severity.from_string (i.severity.getD (""))).value
            ∧ -1 ≤ highestStep a i ∧ highestStep a i ≤ 3 := by
          rw [hstep]
          split_ifs with hlt <;> refine ⟨by omega, by omega, by omega⟩
        obtain ⟨ht, hlo, hhi⟩ := hacc
        obtain ⟨iht, ihlo, ihhi⟩ := ih (highestStep a i) hlo hhi
        rw [iht, ht]
        exact ⟨rfl, ihlo, ihhi⟩
      · have hstep : highestStep a i = a := by
          unfold highestStep
          rw [hnone]
        have hmax : max a.toNat (Severity.from_string (i.severity.getD (""))).value
            = a.toNat := by
          rw [hlow]
          simp [Severity.value]
        obtain ⟨iht, ihlo, ihhi⟩ := ih a h1 h3
        rw [hstep, hmax]
        exact ⟨iht, ihlo, ihhi⟩

/-- Roundtrip: for a non-empty issue list, mapping the label returned by
get_highest_severity back through Severity.from_string yields exactly the
spec's highest ordinal (maximum of from_string ordinals over the list). -/
theorem from_string_get_highest (issues : List Issue) (h : issues ≠ []) :
    (Severity.from_string (get_highest_severity issues)).value
      = spec_highest_ordinal issues := by
  have he : issues.isEmpty = false := by
    simpa [List.isEmpty_iff] using h
  obtain ⟨ht, hlo, hhi⟩ := highest_fold_toNat issues (-1) (by omega) (by omega)
  unfold get_highest_severity spec_highest_ordinal
  rw [he]
  have hconv : ((-1 : Int)).toNat = 0 := rfl
  rw [hconv] at ht
  rw [← ht]
  set H := issues.foldl highestStep (-1) with hH
  interval_cases H <;> simp <;> decide

/-- Claim C1: the decision reports failing (exit status 1) exactly when the
findings list is non-empty and the spec's highest-severity ordinal (maximum
of from_string ordinals, unrecognized defaulting to LOW) is at least the
fail-threshold ordinal; for an empty findings list the highest severity is
the sentinel "none" and the exit status is 0 regardless of the threshold. -/
theorem C1_decision (issues : List Issue) (fail_level : String) :
    (main_exit_code issues fail_level = 1 ↔
      issues ≠ [] ∧ (Severity.from_string fail_level).value ≤ spec_highest_ordinal issues)
    ∧ (issues = [] →
        get_highest_severity issues = ("none") ∧ main_exit_code issues fail_level = 0) := by
  constructor
  · by_cases h : issues = []
    · subst h
      unfold main_exit_code
      rw [if_neg (by simp)]
      simp
    · simp only [main_exit_code]
      rw [from_string_get_highest issues h]
      have hlen : 0 < issues.length := List.length_pos.mpr h
      constructor
      · intro h1
        by_cases hc : (Severity.from_string fail_level).value ≤ spec_highest_ordinal issues
        · exact ⟨h, hc⟩
        · rw [if_neg (fun hx => hc hx.1)] at h1
          cases h1
      · rintro ⟨-, hc⟩
        rw [if_pos ⟨hc, hlen⟩]
  · intro h
    subst h
    refine ⟨rfl, ?_⟩
    unfold main_exit_code
    rw [if_neg (by simp)]

/-- Witness for C1_decision: the spec's own scenario — findings with labels
HIGH and low at fail threshold "high" — exits with status 1, via the
theorem's equivalence. -/
theorem C1_decision_witness : main_exit_code [highIssue, lowIssue] ("high") = 1 :=
  (C1_decision [highIssue, lowIssue] ("high")).1.mpr ⟨by decide, by decide⟩

/-- An entry whose action list is exactly ['no-op'] leaves the summary
unchanged. -/
theorem summaryStep_noop (s : PlanSummary) (e : PlanEntry)
    (h : entryActions e = [("no-op")]) : summaryStep s e = s := by
  simp only [summaryStep]
  rw [if_pos h]

/-- An entry matching no category leaves the summary unchanged. -/
theorem summaryStep_unmatched (s : PlanSummary) (e : PlanEntry)
    (h0 : entryActions e ≠ [("no-op")])
    (hc : ("create") ∉ entryActions e) (hu : ("update") ∉ entryActions e)
    (hr : ("replace") ∉ entryActions e) (hd : ("delete") ∉ entryActions e) :
    summaryStep s e = s := by
  simp only [summaryStep]
  rw [if_neg h0, if_neg hc, if_neg (fun hx => Or.elim hx hu hr), if_neg hd]

/-- Each totals field of the summary fold stays equal to the length of its
bucket. -/
theorem summary_foldl_totals (entries : List PlanEntry) :
    ∀ s : PlanSummary,
      s.totals_add = s.add.length → s.totals_change = s.change.length →
      s.totals_delete = s.delete.length →
      (entries.foldl summaryStep s).totals_add = (entries.foldl summaryStep s).add.length
      ∧ (entries.foldl summaryStep s).totals_change
          = (entries.foldl summaryStep s).change.length
      ∧ (entries.foldl summaryStep s).totals_delete
          = (entries.foldl summaryStep s).delete.length := by
  induction entries with
  | nil => intro s h1 h2 h3; exact ⟨h1, h2, h3⟩
  | cons e tl ih =>
      intro s h1 h2 h3
      rw [List.foldl_cons]
      refine ih (summaryStep s e) ?_ ?_ ?_ <;>
        (simp only [summaryStep]; split_ifs <;> simp [h1, h2, h3])

/-- Claim C8: classification of resource-change entries.  Totals equal
bucket lengths; an entry with action list exactly ['no-op'] contributes to
neither the raw change list nor the summary; an entry matching no category
is omitted from the summary but kept in the raw change list; and the
per-entry categorization checks create first, then update-or-replace
(labeled "update" when update is present, else "replace"), then delete. -/
theorem C8_summary_classification :
    (∀ plan : PlanData,
      (generate_plan_summary plan).totals_add = (generate_plan_summary plan).add.length
      ∧ (generate_plan_summary plan).totals_change
          = (generate_plan_summary plan).change.length
      ∧ (generate_plan_summary plan).totals_delete
          = (generate_plan_summary plan).delete.length)
    ∧ (∀ (pre post : List PlanEntry) (e : PlanEntry), entryActions e = [("no-op")] →
      extract_plan_changes ⟨some (pre ++ e :: post)⟩
          = extract_plan_changes ⟨some (pre ++ post)⟩
      ∧ generate_plan_summary ⟨some (pre ++ e :: post)⟩
          = generate_plan_summary ⟨some (pre ++ post)⟩)
    ∧ (∀ (pre post : List PlanEntry) (e : PlanEntry),
      entryActions e ≠ [("no-op")] →
      ("create") ∉ entryActions e → ("update") ∉ entryActions e →
      ("replace") ∉ entryActions e → ("delete") ∉ entryActions e →
      generate_plan_summary ⟨some (pre ++ e :: post)⟩
          = generate_plan_summary ⟨some (pre ++ post)⟩
      ∧ extract_plan_changes ⟨some (pre ++ e :: post)⟩
          = extract_plan_changes ⟨some pre⟩
              ++ mkResourceChange e :: extract_plan_changes ⟨some post⟩)
    ∧ (∀ (s : PlanSummary) (e : PlanEntry), entryActions e ≠ [("no-op")] →
      (("create") ∈ entryActions e →
        summaryStep s e
          = { s with add := s.add ++ [⟨entryAddress e, e.type_.getD (""), e.name.getD ("")⟩],
                     totals_add := s.totals_add + 1 })
      ∧ (("create") ∉ entryActions e → ("update") ∈ entryActions e →
        summaryStep s e
          = { s with change := s.change
                ++ [⟨entryAddress e, e.type_.getD (""), e.name.getD (""), ("update")⟩],
                     totals_change := s.totals_change + 1 })
      ∧ (("create") ∉ entryActions e → ("update") ∉ entryActions e →
         ("replace") ∈ entryActions e →
        summaryStep s e
          = { s with change := s.change
                ++ [⟨entryAddress e, e.type_.getD (""), e.name.getD (""), ("replace")⟩],
                     totals_change := s.totals_change + 1 })
      ∧ (("create") ∉ entryActions e → ("update") ∉ entryActions e →
         ("replace") ∉ entryActions e → ("delete") ∈ entryActions e →
        summaryStep s e
          = { s with delete := s.delete
                ++ [⟨entryAddress e, e.type_.getD (""), e.name.getD ("")⟩],
                     totals_delete := s.totals_delete + 1 })) := by
  refine ⟨?_, ?_, ?_, ?_⟩
  · intro plan
    cases hp : plan.resource_changes with
    | none => simp [generate_plan_summary, hp, emptySummary]
    | some entries =>
        simp only [generate_plan_summary, hp]
        exact summary_foldl_totals entries emptySummary rfl rfl rfl
  · intro pre post e h
    constructor
    · simp only [extract_plan_changes, extractChanges, List.filterMap_append,
        List.filterMap_cons, h, if_pos]
    · simp only [generate_plan_summary, List.foldl_append, List.foldl_cons,
        summaryStep_noop _ e h]
  · intro pre post e h0 hc hu hr hd
    constructor
    · simp only [generate_plan_summary, List.foldl_append, List.foldl_cons,
        summaryStep_unmatched _ e h0 hc hu hr hd]
    · simp only [extract_plan_changes, extractChanges, List.filterMap_append,
        List.filterMap_cons, if_neg h0]
  · intro s e h0
    refine ⟨?_, ?_, ?_, ?_⟩
    · intro hc
      simp only [summaryStep]
      rw [if_neg h0, if_pos hc]
    · intro hc hu
      simp only [summaryStep]
      rw [if_neg h0, if_neg hc, if_pos (Or.inl hu), if_pos hu]
    · intro hc hu hr
      simp only [summaryStep]
      rw [if_neg h0, if_neg hc, if_pos (Or.inr hr), if_neg hu]
    · intro hc hu hr hd
      simp only [summaryStep]
      rw [if_neg h0, if_neg hc, if_neg (fun hx => Or.elim hx hu hr), if_pos hd]

/-- Witness for C8_summary_classification on concrete plans: totals for a
create+delete plan, no-op insertion invariance, unmatched-entry omission,
and the create categorization of a concrete entry. -/
theorem C8_summary_classification_witness :
    (generate_plan_summary ⟨some [createEntry, deleteEntry]⟩).totals_add
        = (generate_plan_summary ⟨some [createEntry, deleteEntry]⟩).add.length
    ∧ generate_plan_summary ⟨some ([createEntry] ++ noopEntry :: [deleteEntry])⟩
        = generate_plan_summary ⟨some ([createEntry] ++ [deleteEntry])⟩
    ∧ generate_plan_summary ⟨some ([] ++ readEntry :: [createEntry])⟩
        = generate_plan_summary ⟨some ([] ++ [createEntry])⟩
    ∧ summaryStep emptySummary createEntry
        = { emptySummary with
              add := [⟨("aws_s3_bucket.b"), ("aws_s3_bucket"), ("b")⟩], totals_add := 1 } := by
  refine ⟨(C8_summary_classification.1 _).1,
    (C8_summary_classification.2.1 [createEntry] [deleteEntry] noopEntry (by decide)).2,
    (C8_summary_classification.2.2.1 [] [createEntry] readEntry
      (by decide) (by decide) (by decide) (by decide) (by decide)).1,
    ?_⟩
  have h := (C8_summary_classification.2.2.2 emptySummary createEntry (by decide)).1 (by decide)
  rw [h]
  decide

/-- Claim C10: a plan document without the resource-change collection
yields an empty raw change list and an all-empty summary; entries missing
their change block default to an empty action list and empty before/after
states; extraction never fails on an entry with missing fields, producing
the getD-defaulted record; and the all-fields-missing entry extracts to
empty strings, an empty action list and empty states. -/
theorem C10_missing_fields :
    (∀ plan : PlanData, plan.resource_changes = none →
      extract_plan_changes plan = [] ∧ generate_plan_summary plan = emptySummary)
    ∧ (∀ e : PlanEntry, e.change = none →
      entryActions e = [] ∧ entryBefore e = JVal.obj [] ∧ entryAfter e = JVal.obj [])
    ∧ (∀ e : PlanEntry, entryActions e ≠ [("no-op")] →
      extract_plan_changes ⟨some [e]⟩ = [mkResourceChange e])
    ∧ extract_plan_changes ⟨some [emptyEntry]⟩
        = [⟨(""), (""), [], JVal.obj [], JVal.obj []⟩] := by
  refine ⟨?_, ?_, ?_, rfl⟩
  · intro plan h
    exact ⟨by simp [extract_plan_changes, h], by simp [generate_plan_summary, h]⟩
  · intro e h
    exact ⟨by simp [entryActions, h], by simp [entryBefore, h], by simp [entryAfter, h]⟩
  · intro e h
    simp [extract_plan_changes, extractChanges, h]

/-- Witness for C10_missing_fields on the concrete collection-less document
and the all-fields-missing entry. -/
theorem C10_missing_fields_witness :
    extract_plan_changes ⟨none⟩ = []
    ∧ generate_plan_summary ⟨none⟩ = emptySummary
    ∧ entryActions emptyEntry = []
    ∧ extract_plan_changes ⟨some [emptyEntry]⟩ = [mkResourceChange emptyEntry] :=
  ⟨(C10_missing_fields.1 ⟨none⟩ rfl).1,
   (C10_missing_fields.1 ⟨none⟩ rfl).2,
   (C10_missing_fields.2.1 emptyEntry rfl).1,
   C10_missing_fields.2.2.1 emptyEntry (by decide)⟩

/-- The number of in-loop poll attempts is bounded by the starting count
plus the remaining fuel. -/
theorem pollLoop_attempts_le (statuses : Nat → String) (fuel : Nat) :
    ∀ (a sl : Nat) (st : String),
      (pollLoop statuses fuel a sl st).attempts ≤ a + fuel := by
  induction fuel with
  | zero =>
      intro a sl st
      simp only [pollLoop]
      split_ifs <;> simp [PollResult.attempts]
  | succ f ih =>
      intro a sl st
      simp only [pollLoop]
      split_ifs with h1 h2
      · simp [PollResult.attempts]
      · simp only [PollResult.attempts]
        omega
      · have := ih (a + 1) (sl + 10) (statuses (a + 1))
        omega

/-- With the invariant slept = 10 * attempts at entry, every poll outcome
reports slept = 10 * attempts: the sleep interval is a fixed 10 units per
attempt. -/
theorem pollLoop_slept (statuses : Nat → String) (fuel : Nat) :
    ∀ (a : Nat) (st : String),
      (pollLoop statuses fuel a (10 * a) st).slept
        = 10 * (pollLoop statuses fuel a (10 * a) st).attempts := by
  induction fuel with
  | zero =>
      intro a st
      simp only [pollLoop]
      split_ifs <;> simp [PollResult.attempts, PollResult.slept]
  | succ f ih =>
      intro a st
      simp only [pollLoop]
      split_ifs with h1 h2
      · simp [PollResult.attempts, PollResult.slept]
      · simp only [PollResult.attempts, PollResult.slept]
        omega
      · have heq : 10 * a + 10 = 10 * (a + 1) := by omega
        rw [heq]
        exact ih (a + 1) (statuses (a + 1))

/-- When the entry status and every status fetched during the loop is
neither a success nor a failure, the loop exhausts its fuel and times out
on the last fetched status. -/
theorem pollLoop_timeout (statuses : Nat → String) (fuel : Nat) :
    ∀ (a sl : Nat),
      statuses a ∉ success_statuses →
      (∀ j, a < j → j ≤ a + fuel →
        statuses j ∉ success_statuses ∧ statuses j ∉ failure_statuses) →
      pollLoop statuses fuel a sl (statuses a)
        = .pollTimeout (statuses (a + fuel)) (a + fuel) (sl + 10 * fuel) := by
  induction fuel with
  | zero =>
      intro a sl h0 h
      simp [pollLoop, h0]
  | succ f ih =>
      intro a sl h0 h
      have hnew := h (a + 1) (by omega) (by omega)
      simp only [pollLoop]
      rw [if_neg h0, if_neg hnew.2]
      have hrec := ih (a + 1) (sl + 10) hnew.1
        (fun j hj1 hj2 => h j (by omega) (by omega))
      rw [hrec]
      have e1 : a + 1 + f = a + (f + 1) := by omega
      have e2 : sl + 10 + 10 * f = sl + 10 * (f + 1) := by ring
      rw [e1, e2]

/-- When some status fetched during the loop is a failure status and all
earlier fetched statuses are neither success nor failure, the loop stops at
that fetch with RunFailed and that attempt count. -/
theorem pollLoop_runFailed (statuses : Nat → String) :
    ∀ (d : Nat), 1 ≤ d →
      ∀ (fuel a sl : Nat) (st : String),
        d ≤ fuel → st ∉ success_statuses →
        (∀ j, a < j → j < a + d →
          statuses j ∉ success_statuses ∧ statuses j ∉ failure_statuses) →
        statuses (a + d) ∈ failure_statuses →
        pollLoop statuses fuel a sl st
          = .runFailed (statuses (a + d)) (a + d) (sl + 10 * d) := by
  intro d
  induction d with
  | zero => omega
  | succ d' ih =>
      intro _ fuel a sl st hdf h0 hmid hfail
      obtain ⟨f, rfl⟩ : ∃ f, fuel = f + 1 := ⟨fuel - 1, by omega⟩
      by_cases hd' : d' = 0
      · subst hd'
        simp only [pollLoop]
        rw [if_neg h0, if_pos (by simpa using hfail)]
      · have hnew := hmid (a + 1) (by omega) (by omega)
        simp only [pollLoop]
        rw [if_neg h0, if_neg hnew.2]
        have hrec := ih (by omega) f (a + 1) (sl + 10) (statuses (a + 1)) (by omega) hnew.1
          (fun j hj1 hj2 => hmid j (by omega) (by omega))
          (by rw [show a + 1 + d' = a + (d' + 1) by omega]; exact hfail)
        rw [hrec]
        have e1 : a + 1 + d' = a + (d' + 1) := by omega
        have e2 : sl + 10 + 10 * d' = sl + 10 * (d' + 1) := by ring
        rw [e1, e2]

/-- Claim C7: polling policy of the completion poller.  The slept time is
always 10 units per in-loop attempt (fixed interval); a first status check
that is already a terminal success performs zero poll attempts and zero
waiting; the number of poll attempts is bounded by max_wait divided by the
interval (max_wait_minutes * 60 seconds over 10-second checks); and a run
whose statuses never reach a terminal state within the bound ends in
PollTimeout carrying the last observed status. -/
theorem C7_polling_policy :
    (∀ (statuses : Nat → String) (m : Nat),
      (fetch_plan_poll statuses m).slept = 10 * (fetch_plan_poll statuses m).attempts)
    ∧ (∀ (statuses : Nat → String) (m : Nat), statuses 0 ∈ success_statuses →
      fetch_plan_poll statuses m = .success (statuses 0) 0 0)
    ∧ (∀ (statuses : Nat → String) (m : Nat),
      (fetch_plan_poll statuses m).attempts ≤ m * 60 / 10)
    ∧ (∀ (statuses : Nat → String) (m : Nat),
      (∀ k, k ≤ m * 6 → statuses k ∉ success_statuses ∧ statuses k ∉ failure_statuses) →
      fetch_plan_poll statuses m
        = .pollTimeout (statuses (m * 6)) (m * 6) (10 * (m * 6))) := by
  refine ⟨?_, ?_, ?_, ?_⟩
  · intro statuses m
    simp only [fetch_plan_poll]
    split_ifs with h
    · rfl
    · simpa using pollLoop_slept statuses (m * 6) 0 (statuses 0)
  · intro statuses m h
    simp only [fetch_plan_poll]
    rw [if_pos h]
  · intro statuses m
    have hb : m * 6 = m * 60 / 10 := by omega
    simp only [fetch_plan_poll]
    split_ifs with h
    · simp [PollResult.attempts]
    · have := pollLoop_attempts_le statuses (m * 6) 0 0 (statuses 0)
      omega
  · intro statuses m h
    have h0 : statuses 0 ∉ success_statuses := (h 0 (by omega)).1
    simp only [fetch_plan_poll]
    rw [if_neg h0]
    have := pollLoop_timeout statuses (m * 6) 0 0 h0
      (fun j hj1 hj2 => h j (by omega))
    simpa using this

/-- Witness for C7_polling_policy: an immediately planned run performs no
polling, and an always-planning run with a one-minute budget times out
after exactly 6 attempts and 60 slept units. -/
theorem C7_polling_policy_witness :
    fetch_plan_poll (fun _ => ("planned")) 15 = .success (("planned")) 0 0
    ∧ fetch_plan_poll (fun _ => ("planning")) 1 = .pollTimeout (("planning")) 6 60
    ∧ (fetch_plan_poll (fun _ => ("planning")) 1).attempts ≤ 6 := by
  have hconst : (("planning")) ∉ success_statuses ∧ (("planning")) ∉ failure_statuses := by
    decide
  refine ⟨C7_polling_policy.2.1 (fun _ => ("planned")) 15 (by decide), ?_, ?_⟩
  · have := C7_polling_policy.2.2.2 (fun _ => ("planning")) 1 (fun _ _ => hconst)
    simpa using this
  · have := C7_polling_policy.2.2.1 (fun _ => ("planning")) 1
    simpa using this

/-- Claim C2, counterexample: the claim asserts that as soon as any status
check returns a failure status the poller stops immediately with RunFailed
and performs no further status checks — including on the very first check.
On a stream whose first check returns "errored" and whose re-check returns
"planned", the poller instead performs a second status check and completes
successfully, because the pre-loop check never tests for failure. -/
theorem C2_counterexample :
    failFirstStatuses 0 = ("errored")
    ∧ ("errored") ∈ failure_statuses
    ∧ fetch_plan_poll failFirstStatuses 15 = .success (("planned")) 1 10 := by
  exact ⟨rfl, by decide, by decide⟩

/-- Claim C2, amended: failure statuses are detected by the in-loop status
checks, not by the initial pre-loop check.  For every status stream, if the
first check is not a success, the in-loop checks before the k-th are
neither success nor failure, and the k-th check (1 ≤ k ≤ max_retries)
returns a failure status, then the poller stops at exactly that check with
RunFailed carrying that status and performs no further checks — so a
failure at the first check is detected only when a subsequent in-loop
check also fails, within one polling interval when the failure persists. -/
theorem C2_failure_detection (statuses : Nat → String) (m k : Nat)
    (hk1 : 1 ≤ k) (hk2 : k ≤ m * 6)
    (h0 : statuses 0 ∉ success_statuses)
    (hmid : ∀ j, 1 ≤ j → j < k →
      statuses j ∉ success_statuses ∧ statuses j ∉ failure_statuses)
    (hfail : statuses k ∈ failure_statuses) :
    fetch_plan_poll statuses m = .runFailed (statuses k) k (10 * k) := by
  simp only [fetch_plan_poll]
  rw [if_neg h0]
  have := pollLoop_runFailed statuses k hk1 (m * 6) 0 0 (statuses 0) hk2 h0
    (fun j hj1 hj2 => hmid j (by omega) (by omega))
    (by simpa using hfail)
  simpa using this

/-- Witness for C2_failure_detection: the spec scenario [planning,
planning, errored] — RunFailed("errored") is raised on the third status
check (the second in-loop attempt), with no further polling. -/
theorem C2_failure_detection_witness :
    fetch_plan_poll scenarioStatuses 15 = .runFailed (("errored")) 2 20 := by
  have := C2_failure_detection scenarioStatuses 15 2 (by decide) (by decide) (by decide)
    (fun j h1 h2 => by
      have hj : j = 1 := by omega
      subst hj
      decide)
    (by decide)
  simpa using this

/-- The completed-run component of the scan is the first plan-ready run of
the scanned list, independent of the tracked in-progress run. -/
theorem scanRuns_fst (l : List RunInfo) :
    ∀ ip, (scanRuns l ip).1
      = l.find? (fun r => decide (r.status ∈ success_statuses)) := by
  induction l with
  | nil => intro ip; rfl
  | cons r rest ih =>
      intro ip
      by_cases h : r.status ∈ success_statuses
      · simp only [scanRuns]
        rw [if_pos h, List.find?_cons_of_pos _ (by simpa using h)]
      · simp only [scanRuns]
        rw [if_neg h, List.find?_cons_of_neg _ (by simpa using h)]
        exact ih _

/-- Once an in-progress run is tracked, scanning a list without plan-ready
runs keeps it. -/
theorem scanRuns_snd_some (l : List RunInfo) (x : RunInfo) :
    (∀ r ∈ l, r.status ∉ success_statuses) → (scanRuns l (some x)).2 = some x := by
  induction l with
  | nil => intro h; rfl
  | cons r rest ih =>
      intro h
      simp only [scanRuns]
      rw [if_neg (h r (List.mem_cons_self r rest))]
      have hcond : ¬ (r.status ∈ in_progress_statuses ∧ (some x : Option RunInfo) = none) := by
        rintro ⟨-, hc⟩
        exact Option.noConfusion hc
      rw [if_neg hcond]
      exact ih (fun q hq => h q (List.mem_cons_of_mem _ hq))

/-- On a list without plan-ready runs, the tracked in-progress run is the
first in-progress run of the list. -/
theorem scanRuns_snd_none (l : List RunInfo) :
    (∀ r ∈ l, r.status ∉ success_statuses) →
    (scanRuns l none).2 = l.find? (fun r => decide (r.status ∈ in_progress_statuses)) := by
  induction l with
  | nil => intro h; rfl
  | cons r rest ih =>
      intro h
      simp only [scanRuns]
      rw [if_neg (h r (List.mem_cons_self r rest))]
      by_cases hip : r.status ∈ in_progress_statuses
      · rw [if_pos ⟨hip, by trivial⟩, List.find?_cons_of_pos _ (by simpa using hip)]
        exact scanRuns_snd_some rest r (fun q hq => h q (List.mem_cons_of_mem _ hq))
      · rw [if_neg (fun hx => hip hx.1), List.find?_cons_of_neg _ (by simpa using hip)]
        exact ih (fun q hq => h q (List.mem_cons_of_mem _ hq))

/-- In a list sorted by descending created_at, the first run satisfying a
predicate has the maximal created_at among all runs satisfying it. -/
theorem find?_sorted_max (p : RunInfo → Bool) (l : List RunInfo) (x : RunInfo)
    (hs : List.Sorted runDescRel l) (hf : l.find? p = some x) :
    ∀ y ∈ l, p y = true → y.created_at ≤ x.created_at := by
  induction l with
  | nil => cases hf
  | cons a tl ih =>
      rw [List.sorted_cons] at hs
      by_cases hpa : p a = true
      · rw [List.find?_cons_of_pos _ hpa] at hf
        injection hf with hax
        subst hax
        intro y hy hpy
        rcases List.mem_cons.mp hy with rfl | hy'
        · exact le_refl _
        · exact hs.1 y hy'
      · rw [List.find?_cons_of_neg _ (by simpa using hpa)] at hf
        intro y hy hpy
        rcases List.mem_cons.mp hy with rfl | hy'
        · exact absurd hpy hpa
        · exact ih hs.2 hf y hy' hpy

/-- Claim C6: with at least one matching in-progress run and no matching
plan-ready run, the selection returns the run id of a matching in-progress
run whose created_at is maximal among the matching in-progress runs — not
an unrelated run from the full candidate list; and whenever a matching
plan-ready run exists, the selection returns the run id of a matching
plan-ready run with maximal created_at among those (matches being
considered in created_at-descending order). -/
theorem C6_run_matcher (matching_runs all_runs : List RunInfo) :
    ((∀ r ∈ matching_runs, r.status ∉ success_statuses) →
      (∃ r ∈ matching_runs, r.status ∈ in_progress_statuses) →
      ∃ r ∈ matching_runs, r.status ∈ in_progress_statuses
        ∧ select_run_id matching_runs all_runs = some r.run_id
        ∧ ∀ q ∈ matching_runs, q.status ∈ in_progress_statuses →
            q.created_at ≤ r.created_at)
    ∧ ((∃ r ∈ matching_runs, r.status ∈ success_statuses) →
      ∃ r ∈ matching_runs, r.status ∈ success_statuses
        ∧ select_run_id matching_runs all_runs = some r.run_id
        ∧ ∀ q ∈ matching_runs, q.status ∈ success_statuses →
            q.created_at ≤ r.created_at) := by
  constructor
  · rintro hnone ⟨r0, hr0m, hr0ip⟩
    have hne : matching_runs.isEmpty = false := by
      cases matching_runs with
      | nil => cases hr0m
      | cons a l => rfl
    set sorted := List.insertionSort runDescRel matching_runs with hsorted
    have hperm := List.perm_insertionSort runDescRel matching_runs
    have hmem : ∀ q : RunInfo, q ∈ sorted ↔ q ∈ matching_runs := fun q => hperm.mem_iff
    have hns : ∀ r ∈ sorted, r.status ∉ success_statuses :=
      fun r hr => hnone r ((hmem r).mp hr)
    have hfst : (scanRuns sorted none).1 = none := by
      rw [scanRuns_fst sorted none, List.find?_eq_none]
      intro q hq
      simpa using hns q hq
    obtain ⟨x, hx⟩ :
        ∃ x, sorted.find? (fun r => decide (r.status ∈ in_progress_statuses)) = some x := by
      cases hfx : sorted.find? (fun r => decide (r.status ∈ in_progress_statuses)) with
      | none =>
          exfalso
          rw [List.find?_eq_none] at hfx
          have := hfx r0 ((hmem r0).mpr hr0m)
          simp at this
          exact this hr0ip
      | some x => exact ⟨x, rfl⟩
    have hsnd : (scanRuns sorted none).2 = some x := by
      rw [scanRuns_snd_none sorted hns]
      exact hx
    have hscan : scanRuns sorted none = (none, some x) := Prod.ext hfst hsnd
    refine ⟨x, (hmem x).mp (List.mem_of_find?_eq_some hx), ?_, ?_, ?_⟩
    · simpa using List.find?_some hx
    · simp only [select_run_id]
      rw [if_neg (by simp [hne]), ← hsorted, hscan]
    · intro q hqm hqip
      exact find?_sorted_max _ sorted x (List.sorted_insertionSort runDescRel matching_runs)
        hx q ((hmem q).mpr hqm) (by simpa using hqip)
  · rintro ⟨r0, hr0m, hr0s⟩
    have hne : matching_runs.isEmpty = false := by
      cases matching_runs with
      | nil => cases hr0m
      | cons a l => rfl
    set sorted := List.insertionSort runDescRel matching_runs with hsorted
    have hperm := List.perm_insertionSort runDescRel matching_runs
    have hmem : ∀ q : RunInfo, q ∈ sorted ↔ q ∈ matching_runs := fun q => hperm.mem_iff
    obtain ⟨c, hc⟩ :
        ∃ c, sorted.find? (fun r => decide (r.status ∈ success_statuses)) = some c := by
      cases hfx : sorted.find? (fun r => decide (r.status ∈ success_statuses)) with
      | none =>
          exfalso
          rw [List.find?_eq_none] at hfx
          have := hfx r0 ((hmem r0).mpr hr0m)
          simp at this
          exact this hr0s
      | some c => exact ⟨c, rfl⟩
    have hfst : (scanRuns sorted none).1 = some c := by
      rw [scanRuns_fst sorted none]
      exact hc
    have hscan : scanRuns sorted none = (some c, (scanRuns sorted none).2) :=
      Prod.ext hfst rfl
    refine ⟨c, (hmem c).mp (List.mem_of_find?_eq_some hc), ?_, ?_, ?_⟩
    · simpa using List.find?_some hc
    · simp only [select_run_id]
      rw [if_neg (by simp [hne]), ← hsorted, hscan]
    · intro q hqm hqs
      exact find?_sorted_max _ sorted c (List.sorted_insertionSort runDescRel matching_runs)
        hc q ((hmem q).mpr hqm) (by simpa using hqs)

/-- Witness for C6_run_matcher: two matching in-progress runs and an
unrelated completed run heading the full candidate list — the selection
picks the most recent matching in-progress run. -/
theorem C6_run_matcher_witness :
    ∃ r ∈ [runA, runB], r.status ∈ in_progress_statuses
      ∧ select_run_id [runA, runB] [runZ, runA, runB] = some r.run_id
      ∧ ∀ q ∈ [runA, runB], q.status ∈ in_progress_statuses →
          q.created_at ≤ r.created_at :=
  (C6_run_matcher [runA, runB] [runZ, runA, runB]).1 (by decide) ⟨runB, by decide, by decide⟩

end TfPlanAnalyzer
